import Mathlib

/-!
Shallow embedding of the Model API Adapter & Streaming Translation layer of
the Kode repository: the adapter base class (`part_015`/`part_016`), the
Chat-Completions adapter (`src/services/adapters/chatCompletions.ts`), the
Responses-API adapter (`src/services/adapters/responsesAPI.ts`, second
revision, and `part_017`), the SSE line decoder shared by both, and the
stream-to-message reducer.

JavaScript values that the source inspects with `typeof` / truthiness tests
are modelled by `JPrim` (a primitive JS value) and `Option JPrim`
(`none` = `undefined`/`null`).  JavaScript string primitives used by the
source (`split('\n')`, `trim()`, `slice`, `startsWith`) are modelled
character-by-character so that all definitions evaluate by `decide`.
`JSON.parse` and `zodToJsonSchema` are external library calls and are passed
in as function parameters (`none` result = the call throws).
-/

namespace Kode

/-- Primitive JavaScript value as far as the adapters inspect one:
a string, a number, a boolean, or a function value. -/
inductive JPrim where
  | str (s : String)
  | num (n : Int)
  | jbool (b : Bool)
  | func
deriving DecidableEq, Repr

/-- JavaScript truthiness of a possibly-absent primitive value
(`none` models `undefined`/`null`). -/
def jtruthy : Option JPrim → Bool
  | none => false
  | some (JPrim.str s) => s ≠ ""
  | some (JPrim.num n) => n ≠ 0
  | some (JPrim.jbool b) => b
  | some JPrim.func => true

/-- JavaScript `a || b` on possibly-absent primitive values. -/
def jor (a b : Option JPrim) : Option JPrim := if jtruthy a then a else b

/-- JavaScript `typeof v === 'string'` test, returning the string. -/
def asString : Option JPrim → Option String
  | some (JPrim.str s) => some s
  | _ => none

/-- JavaScript `a || b` on possibly-absent strings (`""` is falsy). -/
def strOr (a b : Option String) : Option String :=
  match a with
  | some s => if s = "" then b else some s
  | none => b

/-- Truthiness of a possibly-absent string. -/
def strTruthy : Option String → Bool
  | some s => s ≠ ""
  | none => false

/-! ### JavaScript string primitives, modelled on the character list
so that every definition reduces under `decide`. -/

/-- Character-list core of JavaScript `String.prototype.startsWith`. -/
def jsStartsWithData : List Char → List Char → Bool
  | _, [] => true
  | [], _ :: _ => false
  | c :: cs, p :: ps => c == p && jsStartsWithData cs ps

/-- JavaScript `s.startsWith(p)`. -/
def jsStartsWith (s p : String) : Bool := jsStartsWithData s.data p.data

/-- JavaScript `s.slice(n)` (drop the first `n` characters). -/
def jsSlice (s : String) (n : Nat) : String := ⟨s.data.drop n⟩

/-- Whitespace characters relevant to the SSE wire format
(JavaScript `trim` strips all Unicode whitespace; SSE payloads only
ever carry these). -/
def isWsChar (c : Char) : Bool := c == ' ' || c == '\n' || c == '\t' || c == '\r'

/-- JavaScript `s.trim()`. -/
def jsTrim (s : String) : String :=
  ⟨((s.data.dropWhile isWsChar).reverse.dropWhile isWsChar).reverse⟩

/-- Character-list core of JavaScript `s.split(sep)` for a one-character
separator; `"".split(c)` gives `[""]`, like in JavaScript. -/
def jsSplitData (sep : Char) : List Char → List Char → List String
  | [], acc => [⟨acc.reverse⟩]
  | c :: cs, acc =>
      if c == sep then (⟨acc.reverse⟩ : String) :: jsSplitData sep cs []
      else jsSplitData sep cs (c :: acc)

/-- JavaScript `s.split('\n')` (the only split the adapters perform). -/
def jsSplitNewline (s : String) : List String := jsSplitData '\n' s.data []

/-! ### Capability descriptor and model profile (consumed read-only). -/

/-- The `parameters` sub-object of the capability descriptor. -/
structure CapParameters where
  maxTokensField : String
  temperatureMode : String
  supportsReasoningEffort : Bool
  supportsVerbosity : Bool
deriving DecidableEq, Repr

/-- The `toolCalling` sub-object of the capability descriptor. -/
structure ToolCallingCaps where
  supportsParallelCalls : Bool
  supportsFreeform : Bool
  supportsAllowedTools : Bool
deriving DecidableEq, Repr

/-- The `stateManagement` sub-object of the capability descriptor. -/
structure StateManagementCaps where
  supportsPreviousResponseId : Bool
deriving DecidableEq, Repr

/-- `ModelCapabilities`: the read-only capability descriptor. -/
structure ModelCapabilities where
  parameters : CapParameters
  toolCalling : ToolCallingCaps
  stateManagement : StateManagementCaps
deriving DecidableEq, Repr

/-- `ModelProfile`: the read-only model profile. -/
structure ModelProfile where
  modelName : String
  reasoningEffort : Option String
deriving DecidableEq, Repr

/-! ### Shared adapter helpers (`ModelAPIAdapter`, part_015/part_016). -/

/-- `ModelAPIAdapter.getMaxTokensParam`. -/
def getMaxTokensParam (caps : ModelCapabilities) : String :=
  caps.parameters.maxTokensField

/-- `ModelAPIAdapter.getTemperature` (part_015 lines 38-46 and part_016
lines 58-66, identical): `fixed_one` gives 1, `restricted` gives
`Math.min(1, 0.7)`, anything else gives 0.7.  The method takes no
argument: no caller-supplied temperature is consulted. -/
def getTemperature (caps : ModelCapabilities) : ℚ :=
  if caps.parameters.temperatureMode = "fixed_one" then 1
  else if caps.parameters.temperatureMode = "restricted" then min 1 (7/10)
  else 7/10

/-- `ModelAPIAdapter.shouldIncludeReasoningEffort`. -/
def shouldIncludeReasoningEffort (caps : ModelCapabilities) : Bool :=
  caps.parameters.supportsReasoningEffort

/-- `ModelAPIAdapter.shouldIncludeVerbosity`. -/
def shouldIncludeVerbosity (caps : ModelCapabilities) : Bool :=
  caps.parameters.supportsVerbosity

/-- Temperature resolution exactly as claim C8 words it: `fixed_one` gives
1.0 regardless of the caller value, `restricted` gives `min(1, 0.7)`, and
otherwise the caller-supplied temperature when one is given or 0.7 when
none is given.  Stated from the claim, for comparison with the source
function `getTemperature`. -/
def resolveTemperatureClaim (mode : String) (caller : Option ℚ) : ℚ :=
  if mode = "fixed_one" then 1
  else if mode = "restricted" then min 1 (7/10)
  else caller.getD (7/10)

/-- Temperature resolution as amended by the code: `fixed_one` gives 1.0,
`restricted` gives `min(1, 0.7)`, and otherwise 0.7 always — the
caller-supplied temperature is ignored. -/
def resolveTemperatureAmended (mode : String) (caller : Option ℚ) : ℚ :=
  if mode = "fixed_one" then 1
  else if mode = "restricted" then min 1 (7/10)
  else 7/10

/-! ### Token usage normalizer (`normalizeTokens`, part_016 lines 23-30). -/

/-- A provider usage object: whichever of the divergent field names the
provider sent (`none` = field absent). -/
structure ProviderUsage where
  prompt_tokens : Option Nat
  input_tokens : Option Nat
  promptTokens : Option Nat
  completion_tokens : Option Nat
  output_tokens : Option Nat
  completionTokens : Option Nat
  total_tokens : Option Nat
  totalTokens : Option Nat
  reasoning_tokens : Option Nat
  reasoningTokens : Option Nat
deriving DecidableEq, Repr

/-- Canonical `TokenUsage` shape. -/
structure TokenUsage where
  input : Nat
  output : Nat
  total : Option Nat
  reasoning : Option Nat
deriving DecidableEq, Repr

/-- `normalizeTokens` (part_016 lines 23-30): `??`-chains over the
provider field names; `total` and `reasoning` keep no default. -/
def normalizeTokens (u : ProviderUsage) : TokenUsage :=
  { input :=
      ((u.prompt_tokens.orElse fun _ => u.input_tokens).orElse fun _ =>
        u.promptTokens).getD 0
    output :=
      ((u.completion_tokens.orElse fun _ => u.output_tokens).orElse fun _ =>
        u.completionTokens).getD 0
    total := u.total_tokens.orElse fun _ => u.totalTokens
    reasoning := u.reasoning_tokens.orElse fun _ => u.reasoningTokens }

/-! ### Unified request model.
A caller message is a JS object the adapters inspect field by field; the
fields the source reads are modelled, with `Option`/`JPrim` capturing
absence and the `typeof` checks. -/

/-- JavaScript `.join(sep)`; `[].join` gives `""`. -/
def jsJoin (sep : String) : List String → String
  | [] => ""
  | [x] => x
  | x :: xs => x ++ sep ++ jsJoin sep xs

/-- The `image_url` field of a content part: either an object carrying a
`url` field, or a primitive used directly as the url. -/
inductive ImgVal where
  | obj (url : Option JPrim)
  | prim (p : JPrim)
deriving DecidableEq, Repr

/-- A content part object of a caller message. -/
structure MsgPart where
  type : Option JPrim
  text : Option JPrim
  content : Option JPrim
  image_url : Option ImgVal
deriving DecidableEq, Repr

/-- An entry of a content-part array: a non-object primitive (skipped by
the source) or a part object. -/
inductive PartEntry where
  | prim (p : JPrim)
  | obj (part : MsgPart)
deriving DecidableEq, Repr

/-- The `content` field of a caller message: a string, an array of parts,
a non-string primitive, or absent. -/
inductive ContentV where
  | str (s : String)
  | arr (parts : List PartEntry)
  | prim (p : JPrim)
  | absent
deriving DecidableEq, Repr

/-- JavaScript truthiness of a `content` value (arrays are truthy). -/
def ctruthy : ContentV → Bool
  | ContentV.str s => s ≠ ""
  | ContentV.arr _ => true
  | ContentV.prim p => jtruthy (some p)
  | ContentV.absent => false

/-- JavaScript `message.content || ''`. -/
def jsContentOrEmpty (c : ContentV) : ContentV :=
  if ctruthy c then c else ContentV.str ""

/-- The `function` field of an assistant tool call: a non-object primitive
or an object with `name`/`arguments`. -/
inductive TCFnVal where
  | prim (p : JPrim)
  | fnObj (name : Option JPrim) (arguments : Option JPrim)
deriving DecidableEq, Repr

/-- One entry of an assistant message's `tool_calls` array. -/
inductive TCEntry where
  | prim (p : JPrim)
  | obj (type : Option JPrim) (id : Option JPrim) (call_id : Option JPrim)
      (function : Option TCFnVal)
deriving DecidableEq, Repr

/-- A caller message of `UnifiedRequestParams`. -/
structure UMessage where
  role : String
  content : ContentV
  tool_call_id : Option JPrim
  id : Option JPrim
  tool_calls : Option (List TCEntry)
deriving DecidableEq, Repr

/-- An abstract tool descriptor; `σ` is the type of schema objects
(`inputJSONSchema` / `inputSchema` contents, opaque to this layer). -/
structure UTool (σ : Type) where
  name : String
  description : Option JPrim
  inputJSONSchema : Option σ
  inputSchema : Option σ
deriving DecidableEq, Repr

/-- `UnifiedRequestParams`. -/
structure UnifiedRequestParams (σ : Type) where
  messages : List UMessage
  systemPrompt : List String
  tools : List (UTool σ)
  maxTokens : Nat
  stream : Bool
  reasoningEffort : Option String
  verbosity : Option String
  previousResponseId : Option String
  allowedTools : Option (List String)
  temperature : Option ℚ

/-! ### Canonical response content. -/

/-- A canonical text content block (`{type:'text', text, citations}`). -/
inductive ContentBlock where
  | text (text : String) (citations : List String)
deriving DecidableEq, Repr

/-- The `content` field of a `UnifiedResponse` as the code actually builds
it: either a plain provider string or a block list. -/
inductive UnifiedContent where
  | str (s : String)
  | blocks (blocks : List ContentBlock)
deriving DecidableEq, Repr

/-- Whether a unified content value is a non-empty sequence of content
blocks. -/
def isNonEmptyBlocks : UnifiedContent → Bool
  | UnifiedContent.blocks (_ :: _) => true
  | _ => false

/-! ### SSE line decoder (`parseSSEChunk`, chatCompletions.ts lines 329-345
and responsesAPI.ts lines 584-600, textually identical in both adapters).
`JSON.parse` is the external parameter `jp`; `jp s = none` models a parse
throw. -/

/-- `parseSSEChunk` of both adapters: recognize the `data: ` prefix, strip
and trim it, return `null` for the literal `[DONE]` sentinel before any
JSON parse is attempted, JSON-parse any other non-empty payload and return
`null` when that parse throws. -/
def parseSSEChunk {J : Type} (jp : String → Option J) (line : String) : Option J :=
  if jsStartsWith line "data: " then
    let data := jsTrim (jsSlice line 6)
    if data = "[DONE]" then none
    else if data ≠ "" then jp data
    else none
  else none

/-- One line of the SSE decoding loop of both adapters: each complete line
is skipped when blank (`if (line.trim())`) and otherwise handed to
`parseSSEChunk`. -/
def sseDecodeLine {J : Type} (jp : String → Option J) (line : String) : Option J :=
  if jsTrim line ≠ "" then parseSSEChunk jp line else none

/-- The SSE decoding loop of both adapters over a list of complete lines:
every line is processed in order and each parsed (non-`null`) result is
handed to the event handler. -/
def sseDecode {J : Type} (jp : String → Option J) (lines : List String) : List J :=
  lines.filterMap (sseDecodeLine jp)

/-- A well-formed SSE data line for a given JSON parser: non-blank, carries
the `data: ` prefix, its payload is non-empty, is not the `[DONE]`
sentinel, and parses as JSON. -/
def sseWellFormed {J : Type} (jp : String → Option J) (line : String) : Bool :=
  jsTrim line ≠ "" && jsStartsWith line "data: " &&
    jsTrim (jsSlice line 6) ≠ "[DONE]" && jsTrim (jsSlice line 6) ≠ "" &&
    (jp (jsTrim (jsSlice line 6))).isSome

/-! ### Responses-API adapter (`responsesAPI.ts`, second revision, lines
355-716; the same logic appears in part_017).  External calls are
parameters: `z2j` is `zodToJsonSchema` (`none` = it throws),
`hasTypeOrProps` is the `inputSchema.type || inputSchema.properties`
truthiness test on a schema object, `minimalSchema` is the literal
fallback schema object. -/

namespace ResponsesAPIAdapter

/-- A content part of a Responses-API `message` input item. -/
inductive RContentPart where
  | inputText (text : String)
  | outputText (text : String)
  | inputImage (image_url : String)
deriving DecidableEq, Repr

/-- A Responses-API `input` item. -/
inductive InputItem where
  | message (role : String) (content : List RContentPart)
  | functionCall (name : String) (arguments : String) (call_id : String)
  | functionCallOutput (call_id : String) (output : String)
deriving DecidableEq, Repr

/-- Text extraction for one `role: 'tool'` message's array content
(`convertMessagesToInput`, responsesAPI.ts lines 615-621): keep object
parts, take `part.text || part.content`, keep non-empty strings. -/
def toolResultTexts (parts : List PartEntry) : List String :=
  parts.filterMap fun
    | PartEntry.prim _ => none
    | PartEntry.obj p =>
        match asString (jor p.text p.content) with
        | some s => if s ≠ "" then some s else none
        | none => none

/-- Content parts of a regular message (`convertMessagesToInput`,
responsesAPI.ts lines 661-682): text parts via
`part.text || part.content || ''` kept when a non-empty string, image
parts via the `image_url` object-or-string, kept when a non-empty string
url. -/
def regularContentItems (role : String) (parts : List PartEntry) : List RContentPart :=
  parts.filterMap fun
    | PartEntry.prim _ => none
    | PartEntry.obj p =>
        if p.type = some (JPrim.str "text") then
          match asString (jor (jor p.text p.content) (some (JPrim.str ""))) with
          | some s =>
              if s ≠ "" then
                if role = "assistant" then some (RContentPart.outputText s)
                else some (RContentPart.inputText s)
              else none
          | none => none
        else if p.type = some (JPrim.str "image_url") then
          let url :=
            match p.image_url with
            | some (ImgVal.obj u) => u
            | some (ImgVal.prim pr) => some pr
            | none => none
          match asString url with
          | some u => if u ≠ "" then some (RContentPart.inputImage u) else none
          | none => none
        else none

/-- Input items produced for one caller message (`convertMessagesToInput`,
responsesAPI.ts lines 607-688): the `tool` branch, the assistant
`tool_calls` branch, and the regular-content branch. -/
def itemsOfMessage (m : UMessage) : List InputItem :=
  if m.role = "tool" then
    match asString (jor m.tool_call_id m.id) with
    | some cid =>
        if cid ≠ "" then
          match jsContentOrEmpty m.content with
          | ContentV.arr parts =>
              [InputItem.functionCallOutput cid (jsJoin "\n" (toolResultTexts parts))]
          | ContentV.str s => [InputItem.functionCallOutput cid s]
          | _ => []
        else []
    | none => []
  else if m.role = "assistant" && m.tool_calls.isSome then
    (m.tool_calls.getD []).filterMap fun
      | TCEntry.prim _ => none
      | TCEntry.obj ty id cid fn =>
          if jor ty (some (JPrim.str "function")) = some (JPrim.str "function") then
            let callId := jor id cid
            let nm :=
              match fn with
              | some (TCFnVal.fnObj n _) => n
              | _ => none
            let ar :=
              match fn with
              | some (TCFnVal.fnObj _ a) => a
              | _ => none
            match asString callId, asString nm, asString ar with
            | some c, some n, some a => some (InputItem.functionCall n a c)
            | _, _, _ => none
          else none
  else
    let contentItems :=
      match jsContentOrEmpty m.content with
      | ContentV.arr parts => regularContentItems m.role parts
      | ContentV.str s =>
          if s ≠ "" then
            if m.role = "assistant" then [RContentPart.outputText s]
            else [RContentPart.inputText s]
          else []
      | _ => []
    if contentItems.length ≠ 0 then
      [InputItem.message (if m.role = "assistant" then "assistant" else "user") contentItems]
    else []

/-- `convertMessagesToInput` (responsesAPI.ts lines 602-691). -/
def convertMessagesToInput (messages : List UMessage) : List InputItem :=
  messages.flatMap itemsOfMessage

/-- `buildInstructions` (responsesAPI.ts lines 693-700): non-blank system
prompts joined with a blank-line separator. -/
def buildInstructions (systemPrompt : List String) : String :=
  jsJoin "\n\n" (systemPrompt.filter (fun s => jsTrim s ≠ ""))

/-- A Responses-API wire tool descriptor: flat shape
(`{type:'function', name, description, parameters}`). -/
structure RespWireTool (σ : Type) where
  name : String
  description : Option JPrim
  parameters : σ
deriving DecidableEq, Repr

/-- `buildTools` (responsesAPI.ts lines 425-458): prefer `inputJSONSchema`;
otherwise use `inputSchema` directly when it already looks like a JSON
schema, else convert it with `zodToJsonSchema`, falling back to the
minimal schema when the conversion throws; a function-valued description
becomes the fixed placeholder string. -/
def buildTools {σ : Type} (z2j : σ → Option σ) (hasTypeOrProps : σ → Bool)
    (minimalSchema : σ) (tools : List (UTool σ)) : List (RespWireTool σ) :=
  tools.map fun tool =>
    let params1 : Option σ :=
      match tool.inputJSONSchema with
      | some p => some p
      | none =>
        match tool.inputSchema with
        | some sch =>
            if hasTypeOrProps sch then some sch
            else
              match z2j sch with
              | some j => some j
              | none => some minimalSchema
        | none => none
    let description : Option JPrim :=
      match tool.description with
      | some JPrim.func => some (JPrim.str "Tool with dynamic description")
      | d => jor d (some (JPrim.str ""))
    ⟨tool.name, description, params1.getD minimalSchema⟩

/-- The wire payload built by the Responses-API adapter's `createRequest`.
`reasoning` holds the nested `reasoning.effort` value and
`text_verbosity` the nested `text.verbosity` value. -/
structure RespRequest (σ : Type) where
  model : String
  input : List InputItem
  instructions : String
  max_output_tokens : Nat
  stream : Bool
  temperature : Option ℚ
  reasoning : Option String
  text_verbosity : Option String
  tools : Option (List (RespWireTool σ))
  tool_choice : String
  parallel_tool_calls : Bool
  store : Bool
  previous_response_id : Option String
  includeList : Option (List String)

/-- `createRequest` (responsesAPI.ts lines 361-423; part_017 lines 7-69 is
identical except for the stream flag): the `include` array starts empty,
gains `reasoning.encrypted_content` exactly when reasoning effort is
supported or requested, in which case `reasoning.effort` is also set, and
is attached to the payload only when non-empty. -/
def createRequest {σ : Type} (z2j : σ → Option σ) (hasTypeOrProps : σ → Bool)
    (minimalSchema : σ) (caps : ModelCapabilities) (profile : ModelProfile)
    (params : UnifiedRequestParams σ) : RespRequest σ :=
  let cond := shouldIncludeReasoningEffort caps || strTruthy params.reasoningEffort
  let includeArr := if cond then ["reasoning.encrypted_content"] else []
  { model := profile.modelName
    input := convertMessagesToInput params.messages
    instructions := buildInstructions params.systemPrompt
    max_output_tokens := params.maxTokens
    stream := true
    temperature := if getTemperature caps = 1 then some 1 else none
    reasoning :=
      if cond then
        some ((strOr params.reasoningEffort
          (strOr profile.reasoningEffort (some "medium"))).getD "medium")
      else none
    text_verbosity :=
      if shouldIncludeVerbosity caps then
        some ((strOr params.verbosity (some "high")).getD "high")
      else none
    tools :=
      if params.tools.length > 0 then
        some (buildTools z2j hasTypeOrProps minimalSchema params.tools)
      else none
    tool_choice := "auto"
    parallel_tool_calls := caps.toolCalling.supportsParallelCalls
    store := false
    previous_response_id :=
      if strTruthy params.previousResponseId &&
          caps.stateManagement.supportsPreviousResponseId then
        params.previousResponseId
      else none
    includeList := if includeArr.length > 0 then some includeArr else none }

/-- A part of a Responses-API output `message` item. -/
structure RespOutPart where
  type : Option String
  text : Option String
deriving DecidableEq, Repr

/-- The `content` field of a Responses-API output item. -/
inductive RespItemContentV where
  | arr (parts : List RespOutPart)
  | str (s : String)
  | absent
deriving DecidableEq, Repr

/-- An item of a buffered Responses-API response's `output` array. -/
structure RespOutItem where
  type : Option String
  content : RespItemContentV
  id : Option JPrim
  name : Option JPrim
  arguments : Option JPrim
deriving DecidableEq, Repr

/-- Usage block of a buffered Responses-API response
(`output_tokens_details.reasoning_tokens` flattened into one field). -/
structure RespUsageWire where
  input_tokens : Option Nat
  output_tokens : Option Nat
  reasoning_tokens : Option Nat
deriving DecidableEq, Repr

/-- A buffered (already JSON-parsed) Responses-API response. -/
structure RespResponse where
  id : Option String
  output_text : Option String
  output : Option (List RespOutItem)
  usage : Option RespUsageWire
deriving DecidableEq, Repr

/-- Text of one output `message` item (responsesAPI.ts lines 479-487):
array content keeps `text`-typed parts joined by newline; other content is
`item.content || ''`. -/
def itemText (item : RespOutItem) : String :=
  match item.content with
  | RespItemContentV.arr parts =>
      jsJoin "\n" (((parts.filter (fun p => p.type = some "text")).map
        (fun p => p.text.getD "")))
  | RespItemContentV.str s => s
  | RespItemContentV.absent => ""

/-- A tool call extracted from a buffered response. -/
structure RespToolCall where
  id : JPrim
  name : Option JPrim
  arguments : Option JPrim
deriving DecidableEq, Repr

/-- `parseToolCalls` (responsesAPI.ts lines 702-716): filter the output
array for `tool_call` items; `freshToolId` stands for the generated
fallback id. -/
def parseToolCalls (freshToolId : String) (r : RespResponse) : List RespToolCall :=
  match r.output with
  | none => []
  | some items =>
      (items.filter (fun i => i.type = some "tool_call")).map fun i =>
        ⟨(jor i.id (some (JPrim.str freshToolId))).getD (JPrim.str freshToolId),
          i.name, i.arguments⟩

/-- The UnifiedResponse built by the buffered Responses-API parser. -/
structure RespUnifiedNS where
  id : String
  content : UnifiedContent
  toolCalls : List RespToolCall
  promptTokens : Nat
  completionTokens : Nat
  reasoningTokens : Option Nat
  responseId : Option String
deriving DecidableEq, Repr

/-- `parseNonStreamingResponse` (responsesAPI.ts lines 470-513): text from
`message` items (parts joined by newline, items joined by a blank line)
with `output_text` as fallback, then normalized to a one-element content
block array — an empty text yields one empty text block.  `freshId`
stands for the generated fallback response id. -/
def parseNonStreamingResponse (freshId freshToolId : String)
    (r : RespResponse) : RespUnifiedNS :=
  let content0 := r.output_text.getD ""
  let content :=
    match r.output with
    | some items =>
        let messageItems := items.filter (fun i => i.type = some "message")
        if messageItems.length > 0 then
          jsJoin "\n\n" ((messageItems.map itemText).filter (fun s => s ≠ ""))
        else content0
    | none => content0
  let contentArray :=
    if content ≠ "" then [ContentBlock.text content []]
    else [ContentBlock.text "" []]
  { id := (strOr r.id (some freshId)).getD freshId
    content := UnifiedContent.blocks contentArray
    toolCalls := parseToolCalls freshToolId r
    promptTokens := (r.usage.bind (fun u => u.input_tokens)).getD 0
    completionTokens := (r.usage.bind (fun u => u.output_tokens)).getD 0
    reasoningTokens := r.usage.bind (fun u => u.reasoning_tokens)
    responseId := r.id }

end ResponsesAPIAdapter

/-! ### Chat-Completions adapter (`chatCompletions.ts`). -/

namespace ChatCompletionsAdapter

/-- A wire message of the Chat-Completions request: a system entry built
from a system-prompt string, or a caller message passed through. -/
inductive CCWireMessage where
  | system (content : String)
  | caller (m : UMessage)
deriving DecidableEq, Repr

/-- A Chat-Completions wire tool descriptor: nested shape
(`{type:'function', function:{name, description, parameters}}`). -/
structure CCWireTool (σ : Type) where
  name : String
  description : Option JPrim
  parameters : σ
deriving DecidableEq, Repr

/-- `buildMessages` (chatCompletions.ts lines 108-116): every
system-prompt string becomes one system-role entry — there is no
filtering of empty strings — followed by the caller messages. -/
def buildMessages (systemPrompt : List String) (messages : List UMessage) :
    List CCWireMessage :=
  systemPrompt.map CCWireMessage.system ++ messages.map CCWireMessage.caller

/-- `buildTools` (chatCompletions.ts lines 55-65); `z2j` is
`zodToJsonSchema`, called on the (possibly absent) `inputSchema` whenever
`inputJSONSchema` is absent. -/
def buildTools {σ : Type} (z2j : Option σ → σ) (tools : List (UTool σ)) :
    List (CCWireTool σ) :=
  tools.map fun tool =>
    ⟨tool.name, jor tool.description (some (JPrim.str "")),
      match tool.inputJSONSchema with
      | some p => p
      | none => z2j tool.inputSchema⟩

/-- The wire payload built by the Chat-Completions adapter's
`createRequest`; the token-cap key is capability-dependent, so it is
modelled as the pair `maxTokensField`/`maxTokens`. -/
structure CCRequest (σ : Type) where
  model : String
  messages : List CCWireMessage
  maxTokensField : String
  maxTokens : Nat
  temperature : Option ℚ
  tools : Option (List (CCWireTool σ))
  tool_choice : Option String
  reasoning_effort : Option String
  verbosity : Option String
  stream : Option Bool
  stream_options_include_usage : Option Bool

/-- `createRequest` (chatCompletions.ts lines 7-53): system prompts then
caller messages, capability-named token cap, resolved temperature, tools
with `tool_choice` `'auto'` when any, flat reasoning-effort/verbosity
fields when supported and requested, stream flags when streaming, and the
o1 quirk rule deleting temperature and stream fields. -/
def createRequest {σ : Type} (z2j : Option σ → σ) (caps : ModelCapabilities)
    (profile : ModelProfile) (params : UnifiedRequestParams σ) : CCRequest σ :=
  let base : CCRequest σ :=
    { model := profile.modelName
      messages := buildMessages params.systemPrompt params.messages
      maxTokensField := getMaxTokensParam caps
      maxTokens := params.maxTokens
      temperature := some (getTemperature caps)
      tools :=
        if params.tools.length > 0 then some (buildTools z2j params.tools)
        else none
      tool_choice := if params.tools.length > 0 then some "auto" else none
      reasoning_effort :=
        if shouldIncludeReasoningEffort caps && strTruthy params.reasoningEffort then
          params.reasoningEffort
        else none
      verbosity :=
        if shouldIncludeVerbosity caps && strTruthy params.verbosity then
          params.verbosity
        else none
      stream := if params.stream then some true else none
      stream_options_include_usage := if params.stream then some true else none }
  if jsStartsWith profile.modelName "o1" then
    { base with
      temperature := none
      stream := none
      stream_options_include_usage := none }
  else base

/-- The message object of a buffered Chat-Completions choice; `τ` is the
type of raw provider tool-call objects (passed through unchanged). -/
structure CCRespMessage (τ : Type) where
  content : Option String
  tool_calls : Option (List τ)
deriving DecidableEq, Repr

/-- A choice of a buffered Chat-Completions response. -/
structure CCChoiceNS (τ : Type) where
  message : Option (CCRespMessage τ)
deriving DecidableEq, Repr

/-- Usage block of a buffered Chat-Completions response. -/
structure CCUsageWire where
  prompt_tokens : Option Nat
  completion_tokens : Option Nat
deriving DecidableEq, Repr

/-- A buffered (already JSON-parsed) Chat-Completions response. -/
structure CCResponse (τ : Type) where
  id : Option String
  choices : Option (List (CCChoiceNS τ))
  usage : Option CCUsageWire
deriving DecidableEq, Repr

/-- The UnifiedResponse built by the non-streaming branch of the
Chat-Completions `parseResponse`. -/
structure CCUnifiedNS (τ : Type) where
  id : String
  content : UnifiedContent
  toolCalls : List τ
  promptTokens : Nat
  completionTokens : Nat
  input_tokens : Nat
  output_tokens : Nat
  totalTokens : Nat
deriving DecidableEq, Repr

/-- Non-streaming branch of `parseResponse` (chatCompletions.ts lines
91-105): the content field is `choice?.message?.content || ''` — the raw
provider string, not a content-block array.  `freshId` stands for the
generated fallback id. -/
def parseResponseNonStreaming {τ : Type} (freshId : String) (r : CCResponse τ) :
    CCUnifiedNS τ :=
  let choice := (r.choices.getD []).head?
  let msg := choice.bind (fun c => c.message)
  let pt := (r.usage.bind (fun u => u.prompt_tokens)).getD 0
  let ct := (r.usage.bind (fun u => u.completion_tokens)).getD 0
  { id := (strOr r.id (some freshId)).getD freshId
    content := UnifiedContent.str ((msg.bind (fun m => m.content)).getD "")
    toolCalls := (msg.bind (fun m => m.tool_calls)).getD []
    promptTokens := pt
    completionTokens := ct
    input_tokens := pt
    output_tokens := ct
    totalTokens := pt + ct }

end ChatCompletionsAdapter

/-! ### Streaming events (`StreamingEvent`, part_015/part_016). -/

/-- The `tool` payload of a `tool_request` event as the Chat-Completions
and Responses-API streaming parsers build it. -/
structure ToolEv where
  id : Option String
  name : Option String
  input : String
deriving DecidableEq, Repr

/-- The usage payload carried by a `usage` event. -/
structure UsageEv where
  promptTokens : Nat
  completionTokens : Nat
  input_tokens : Nat
  output_tokens : Nat
  totalTokens : Nat
  reasoningTokens : Nat
deriving DecidableEq, Repr

/-- `StreamingEvent` (part_015 lines 6-12): the tagged event union
produced by `parseStreamingResponse`. -/
inductive StreamingEvent where
  | messageStart (responseId : String)
  | textDelta (delta : String) (responseId : String)
  | toolRequest (tool : ToolEv)
  | usage (u : UsageEv)
  | messageStop (id : String) (content : List ContentBlock)
  | error (msg : String)
deriving DecidableEq, Repr

/-- Event classifiers. -/
def isStart : StreamingEvent → Bool
  | StreamingEvent.messageStart _ => true
  | _ => false

def isTextDelta : StreamingEvent → Bool
  | StreamingEvent.textDelta _ _ => true
  | _ => false

def isToolRequest : StreamingEvent → Bool
  | StreamingEvent.toolRequest _ => true
  | _ => false

def isStop : StreamingEvent → Bool
  | StreamingEvent.messageStop _ _ => true
  | _ => false

def isError : StreamingEvent → Bool
  | StreamingEvent.error _ => true
  | _ => false

/-- Projection of a `tool_request` event. -/
def getToolReq : StreamingEvent → Option ToolEv
  | StreamingEvent.toolRequest t => some t
  | _ => none

/-- Start discipline scanner: walking the event list with a
has-a-`message_start`-been-seen flag, it accepts exactly the lists in
which no second `message_start` occurs and every `text_delta` comes after
a `message_start`. -/
def startOk : Bool → List StreamingEvent → Bool
  | _, [] => true
  | seen, StreamingEvent.messageStart _ :: r => !seen && startOk true r
  | seen, StreamingEvent.textDelta _ _ :: r => seen && startOk seen r
  | seen, _ :: r => startOk seen r

namespace ChatCompletionsAdapter

/-! ### Chat-Completions streaming parser (`parseStreamingResponse`,
chatCompletions.ts lines 119-239).  The generator is modelled as a
function from the list of byte chunks the reader delivers (plus an
optional read error raised after them) to the list of yielded events. -/

/-- The `function` field of a streamed tool-call fragment. -/
structure CCToolFn where
  name : Option String
  arguments : Option String
deriving DecidableEq, Repr

/-- One entry of a streamed `delta.tool_calls` array.  The wire carries an
`index` field for cross-chunk reconciliation; the source never reads
it. -/
structure CCToolFrag where
  index : Option Nat
  id : Option String
  function : Option CCToolFn
deriving DecidableEq, Repr

/-- A streamed `choice.delta` object. -/
structure CCDelta where
  content : Option String
  reasoning_content : Option String
  tool_calls : Option (List CCToolFrag)
deriving DecidableEq, Repr

/-- A streamed choice. -/
structure CCChoice where
  delta : Option CCDelta
deriving DecidableEq, Repr

/-- Usage object of a streamed chunk. -/
structure CCUsageRaw where
  prompt_tokens : Option Nat
  completion_tokens : Option Nat
  total_tokens : Option Nat
deriving DecidableEq, Repr

/-- One JSON-parsed SSE chunk of a Chat-Completions stream. -/
structure ChatChunk where
  id : Option String
  choices : Option (List CCChoice)
  usage : Option CCUsageRaw
deriving DecidableEq, Repr

/-- The generator's per-stream mutable locals (`responseId`,
`hasStarted`, `accumulatedContent`). -/
structure CCStreamState where
  responseId : String
  hasStarted : Bool
  accumulated : String
deriving DecidableEq, Repr

/-- The `tool_request` event built for one streamed fragment
(chatCompletions.ts lines 180-189): id and name taken as-is (possibly
absent), `arguments` defaulted to the empty-object string when falsy. -/
def toolRequestOfFrag (tc : CCToolFrag) : StreamingEvent :=
  StreamingEvent.toolRequest
    ⟨tc.id, tc.function.bind (fun f => f.name),
      match tc.function.bind (fun f => f.arguments) with
      | some s => if s = "" then "\x7b\x7d" else s
      | none => "\x7b\x7d"⟩

/-- The tool-call fragments of one parsed chunk
(`parsed.choices?.[0].delta?.tool_calls`). -/
def fragsOfChunk (p : ChatChunk) : List CCToolFrag :=
  match ((p.choices.getD []).head?).bind (fun c => c.delta) with
  | some d => d.tool_calls.getD []
  | none => []

/-- The response id after one parsed chunk (chatCompletions.ts lines
142-144): `if (parsed.id) responseId = parsed.id` — a missing or empty id
keeps the previous one. -/
def ccRidOf (p : ChatChunk) (st : CCStreamState) : String :=
  match p.id with
  | some s => if s = "" then st.responseId else s
  | none => st.responseId

/-- The combined text delta of one parsed chunk (chatCompletions.ts lines
147-151): plain `content` and `reasoning_content` concatenated into the
same text channel, empty when the chunk has no first-choice delta. -/
def ccFullDelta (p : ChatChunk) : String :=
  match ((p.choices.getD []).head?).bind (fun c => c.delta) with
  | some d => d.content.getD "" ++ d.reasoning_content.getD ""
  | none => ""

/-- Text events of one parsed chunk (chatCompletions.ts lines 153-175):
on the first non-empty delta a `message_start` precedes the
`text_delta`. -/
def ccTextEvents (p : ChatChunk) (st : CCStreamState) : List StreamingEvent :=
  if ccFullDelta p ≠ "" then
    if st.hasStarted then [StreamingEvent.textDelta (ccFullDelta p) (ccRidOf p st)]
    else [StreamingEvent.messageStart (ccRidOf p st),
      StreamingEvent.textDelta (ccFullDelta p) (ccRidOf p st)]
  else []

/-- Usage event of one parsed chunk (chatCompletions.ts lines 193-209). -/
def ccUsageEvents (p : ChatChunk) : List StreamingEvent :=
  match p.usage with
  | some u =>
      let pt := u.prompt_tokens.getD 0
      let ct := u.completion_tokens.getD 0
      [StreamingEvent.usage ⟨pt, ct, pt, ct, u.total_tokens.getD (pt + ct), 0⟩]
  | none => []

/-- Event handling for one parsed SSE chunk (chatCompletions.ts lines
141-209): update the response id, emit `message_start` before the first
non-empty text delta and the `text_delta` itself, emit one `tool_request`
per fragment of the chunk's `tool_calls` array, and emit a `usage` event
when the chunk carries usage. -/
def processParsed (p : ChatChunk) (st : CCStreamState) :
    List StreamingEvent × CCStreamState :=
  (ccTextEvents p st ++ ((fragsOfChunk p).map toolRequestOfFrag ++ ccUsageEvents p),
    ⟨ccRidOf p st, st.hasStarted || ccFullDelta p ≠ "",
      if ccFullDelta p ≠ "" then st.accumulated ++ ccFullDelta p
      else st.accumulated⟩)

/-- One complete line of the stream: blank lines are skipped, the rest go
through `parseSSEChunk` and, when parsed, through `processParsed`. -/
def processLine (jp : String → Option ChatChunk) (line : String)
    (st : CCStreamState) : List StreamingEvent × CCStreamState :=
  if jsTrim line ≠ "" then
    match parseSSEChunk jp line with
    | some p => processParsed p st
    | none => ([], st)
  else ([], st)

/-- All complete lines of one chunk, in order. -/
def processLines (jp : String → Option ChatChunk) :
    List String → CCStreamState → List StreamingEvent × CCStreamState
  | [], st => ([], st)
  | l :: ls, st =>
      let r1 := processLine jp l st
      let r2 := processLines jp ls r1.2
      (r1.1 ++ r2.1, r2.2)

/-- The generator's full per-stream state: the rolling line buffer plus
the stream locals. -/
structure CCGenState where
  buffer : String
  locals : CCStreamState
deriving DecidableEq, Repr

/-- One reader chunk (chatCompletions.ts lines 130-135): append to the
buffer, split on newline, hold back the final (possibly incomplete) line,
process the complete ones. -/
def processChunk (jp : String → Option ChatChunk) (chunk : String)
    (st : CCGenState) : List StreamingEvent × CCGenState :=
  let lines := jsSplitNewline (st.buffer ++ chunk)
  let r := processLines jp lines.dropLast st.locals
  (r.1, ⟨lines.getLastD "", r.2⟩)

/-- All reader chunks, in order. -/
def processChunks (jp : String → Option ChatChunk) :
    List String → CCGenState → List StreamingEvent × CCGenState
  | [], st => ([], st)
  | c :: cs, st =>
      let r1 := processChunk jp c st
      let r2 := processChunks jp cs r1.2
      (r1.1 ++ r2.1, r2.2)

/-- `parseStreamingResponse` (chatCompletions.ts lines 119-239) on a
stream whose reader delivers `chunks` and then either finishes cleanly
(`err = none`) or raises (`err = some msg`): the events of the processed
chunks, then on failure one `error` event (the catch block), then in
either case the final `message_stop` carrying the accumulated content —
one text block, empty when nothing accumulated.  `rid0` stands for
`response.id || 'chatcmpl_<now>'`. -/
def parseStreamingResponse (jp : String → Option ChatChunk) (rid0 : String)
    (chunks : List String) (err : Option String) : List StreamingEvent :=
  let r := processChunks jp chunks ⟨"", ⟨rid0, false, ""⟩⟩
  let errEvs :=
    match err with
    | some m => [StreamingEvent.error m]
    | none => []
  let fin := r.2.locals.accumulated
  let finalContent :=
    if fin ≠ "" then [ContentBlock.text fin []] else [ContentBlock.text "" []]
  r.1 ++ errEvs ++ [StreamingEvent.messageStop r.2.locals.responseId finalContent]

/-! ### Stream-to-message reducer (`parseStreamingChatCompletion`,
chatCompletions.ts lines 241-327).  `A` is the type of JSON values
produced by the external `JSON.parse` (`jp s = none` = the parse throws);
`emptyObj` is the literal empty object. -/

/-- A canonical content block assembled by the reducer: a text block or a
tool-use block whose input is a parsed JSON value. -/
inductive RedBlock (A : Type) where
  | text (text : String) (citations : List String)
  | toolUse (id : Option String) (name : Option String) (input : A)
deriving DecidableEq, Repr

/-- Text-delta accumulation (chatCompletions.ts lines 257-265): append to
a trailing text block, or push a fresh one when the list is empty or ends
in a non-text block. -/
def addTextDelta {A : Type} (blocks : List (RedBlock A)) (d : String) :
    List (RedBlock A) :=
  match blocks.getLast? with
  | some (RedBlock.text t c) => blocks.dropLast ++ [RedBlock.text (t ++ d) c]
  | _ => blocks ++ [RedBlock.text d []]

/-- The reducer's accumulators (`contentBlocks`, `pendingToolCalls`,
`usage`, `responseId`). -/
structure RedState (A : Type) where
  blocks : List (RedBlock A)
  pending : List ToolEv
  prompt_tokens : Nat
  completion_tokens : Nat
  totalTokens : Option Nat
  responseId : String
deriving DecidableEq, Repr

/-- One event of the reducer's drain loop (chatCompletions.ts lines
251-282); `message_stop` and `error` events fall through with no
handler. -/
def stepReduce {A : Type} (st : RedState A) : StreamingEvent → RedState A
  | StreamingEvent.messageStart rid =>
      { st with responseId := if rid ≠ "" then rid else st.responseId }
  | StreamingEvent.textDelta d _ => { st with blocks := addTextDelta st.blocks d }
  | StreamingEvent.toolRequest t => { st with pending := st.pending ++ [t] }
  | StreamingEvent.usage u =>
      { st with
        prompt_tokens := u.input_tokens
        completion_tokens := u.output_tokens
        totalTokens := some u.totalTokens }
  | StreamingEvent.messageStop _ _ => st
  | StreamingEvent.error _ => st

/-- Tolerant argument parsing (chatCompletions.ts lines 285-288):
`toolArgs` starts as the empty object, a falsy input keeps it, and a
parse throw is swallowed leaving it. -/
def tolerantParse {A : Type} (jp : String → Option A) (emptyObj : A)
    (s : String) : A :=
  if s ≠ "" then (jp s).getD emptyObj else emptyObj

/-- Tool-use projection of a reducer content block. -/
def getToolUse {A : Type} : RedBlock A → Option (Option String × Option String × A)
  | RedBlock.toolUse i n inp => some (i, n, inp)
  | _ => none

/-- Whether a reducer content block is a tool-use block. -/
def isToolUseB {A : Type} : RedBlock A → Bool
  | RedBlock.toolUse _ _ _ => true
  | _ => false

/-- What the reducer returns of the assembled assistant message. -/
structure RedResult (A : Type) where
  content : List (RedBlock A)
  input_tokens : Nat
  output_tokens : Nat
  totalTokens : Nat
  responseId : String
deriving DecidableEq, Repr

/-- `parseStreamingChatCompletion` (chatCompletions.ts lines 241-327):
drain every event, then append one tool-use block per pending tool call,
parsing its argument string tolerantly. -/
def parseStreamingChatCompletion {A : Type} (jp : String → Option A)
    (emptyObj : A) (rid0 : String) (evs : List StreamingEvent) : RedResult A :=
  let st := evs.foldl stepReduce ⟨[], [], 0, 0, none, rid0⟩
  { content :=
      st.blocks ++ st.pending.map (fun t =>
        RedBlock.toolUse t.id t.name (tolerantParse jp emptyObj t.input))
    input_tokens := st.prompt_tokens
    output_tokens := st.completion_tokens
    totalTokens := st.totalTokens.getD (st.prompt_tokens + st.completion_tokens)
    responseId := st.responseId }

/-- A streamed chunk carrying the first half of one tool call's argument
string (claim C5's experiment: the provider split the arguments of the
index-0 tool call across two deltas). -/
def fragmentChunkA : ChatChunk :=
  { id := some "r1"
    choices := some [⟨some
      { content := none
        reasoning_content := none
        tool_calls := some [⟨some 0, some "c1", some ⟨some "f", some "\x7b\"a\":"⟩⟩] }⟩]
    usage := none }

/-- The follow-up chunk carrying the second half of the same (index-0)
tool call's argument string, with no id and no name. -/
def fragmentChunkB : ChatChunk :=
  { id := none
    choices := some [⟨some
      { content := none
        reasoning_content := none
        tool_calls := some [⟨some 0, none, some ⟨none, some "1\x7d"⟩⟩] }⟩]
    usage := none }

/-- A concrete JSON parser table mapping the two SSE payloads of the
split-tool-call experiment to their parsed chunks (what `JSON.parse`
would produce for the corresponding JSON texts). -/
def fragmentJp : String → Option ChatChunk := fun s =>
  if s = "A" then some fragmentChunkA
  else if s = "B" then some fragmentChunkB
  else none

end ChatCompletionsAdapter

namespace ResponsesAPIAdapter

/-! ### Responses-API streaming chunk handling
(`ResponsesAPIAdapter.processStreamingChunk`, part_017 lines 183-239). -/

/-- A streamed output item (`parsed.item`). -/
structure RespStreamItem where
  type : Option String
  call_id : Option JPrim
  id : Option JPrim
  name : Option JPrim
  arguments : Option JPrim
deriving DecidableEq, Repr

/-- The `parsed.item || {}` default. -/
def emptyRespStreamItem : RespStreamItem := ⟨none, none, none, none, none⟩

/-- Usage object of a streamed chunk
(`output_tokens_details?.reasoning_tokens` flattened into one field). -/
structure RespStreamUsage where
  input_tokens : Option Nat
  output_tokens : Option Nat
  total_tokens : Option Nat
  reasoning_tokens : Option Nat
deriving DecidableEq, Repr

/-- One JSON-parsed SSE chunk of a Responses-API stream, discriminated by
its `type` string. -/
structure RespChunk where
  type : Option String
  delta : Option String
  item : Option RespStreamItem
  usage : Option RespStreamUsage
deriving DecidableEq, Repr

/-- Modelled from the spec: `OpenAIAdapter.handleTextDelta` — the shared
base class `openaiAdapter.ts` that part_017 imports is not under src/.
Per spec §3 and §4.3, a text delta produces `message_start` first (only
before any content has started) followed by one `text_delta`, and only
those events. -/
def handleTextDelta (delta rid : String) (hasStarted : Bool) :
    List StreamingEvent :=
  if hasStarted then [StreamingEvent.textDelta delta rid]
  else [StreamingEvent.messageStart rid, StreamingEvent.textDelta delta rid]

/-- `processStreamingChunk` (part_017 lines 183-239): text deltas for the
text-delta chunk type; for an `response.output_item.done` chunk whose
item is a `function_call` with call id (`call_id || id`), name and
arguments all strings, exactly one atomic `tool_request`; a `usage` event
when the chunk carries usage. -/
def processStreamingChunk (p : RespChunk) (rid : String) (hasStarted : Bool) :
    List StreamingEvent :=
  let textEvs :=
    if p.type = some "response.output_text.delta" then
      let delta := p.delta.getD ""
      if delta ≠ "" then handleTextDelta delta rid hasStarted else []
    else []
  let toolEvs :=
    if p.type = some "response.output_item.done" then
      let item := p.item.getD emptyRespStreamItem
      if item.type = some "function_call" then
        match asString (jor item.call_id item.id), asString item.name,
            asString item.arguments with
        | some cid, some nm, some args =>
            [StreamingEvent.toolRequest ⟨some cid, some nm, args⟩]
        | _, _, _ => []
      else []
    else []
  let usageEvs : List StreamingEvent :=
    match p.usage with
    | some u =>
        let pt := u.input_tokens.getD 0
        let ct := u.output_tokens.getD 0
        [StreamingEvent.usage
          ⟨pt, ct, pt, ct, u.total_tokens.getD (pt + ct), u.reasoning_tokens.getD 0⟩]
    | none => []
  textEvs ++ (toolEvs ++ usageEvs)

/-- The item-completed condition of claim C6: an
`response.output_item.done` chunk whose `function_call` item has resolved
call id, name and arguments all of string type. -/
def itemDoneComplete (p : RespChunk) : Bool :=
  p.type = some "response.output_item.done" &&
    (p.item.getD emptyRespStreamItem).type = some "function_call" &&
    (asString (jor (p.item.getD emptyRespStreamItem).call_id
      (p.item.getD emptyRespStreamItem).id)).isSome &&
    (asString (p.item.getD emptyRespStreamItem).name).isSome &&
    (asString (p.item.getD emptyRespStreamItem).arguments).isSome

/-- The single atomic `tool_request` event emitted for a complete
`function_call` item. -/
def completedToolEvent (p : RespChunk) : StreamingEvent :=
  StreamingEvent.toolRequest
    ⟨asString (jor (p.item.getD emptyRespStreamItem).call_id
        (p.item.getD emptyRespStreamItem).id),
      asString (p.item.getD emptyRespStreamItem).name,
      (asString (p.item.getD emptyRespStreamItem).arguments).getD ""⟩

end ResponsesAPIAdapter

end Kode

namespace Kode

theorem sseDecodeLine_eq_of_wellFormed {J : Type} (jp : String → Option J)
    (l : String) (h : sseWellFormed jp l = true) :
    sseDecodeLine jp l = jp (jsTrim (jsSlice l 6)) := by
  simp only [sseWellFormed, Bool.and_eq_true, decide_eq_true_eq, ne_eq] at h
  obtain ⟨⟨⟨⟨h1, h2⟩, h3⟩, h4⟩, _⟩ := h
  simp [sseDecodeLine, parseSSEChunk, h1, h2, h3, h4]

theorem sseDecodeLine_eq_none_of_not_wellFormed {J : Type} (jp : String → Option J)
    (l : String) (h : ¬ sseWellFormed jp l = true) :
    sseDecodeLine jp l = none := by
  by_cases h1 : jsTrim l = ""
  · simp [sseDecodeLine, h1]
  · by_cases h2 : jsStartsWith l "data: " = true
    · by_cases h3 : jsTrim (jsSlice l 6) = "[DONE]"
      · simp [sseDecodeLine, parseSSEChunk, h1, h2, h3]
      · by_cases h4 : jsTrim (jsSlice l 6) = ""
        · simp [sseDecodeLine, parseSSEChunk, h1, h2, h3, h4]
        · cases hj : jp (jsTrim (jsSlice l 6)) with
          | none => simp [sseDecodeLine, parseSSEChunk, h1, h2, h3, h4, hj]
          | some v =>
            exfalso
            apply h
            simp only [sseWellFormed, Bool.and_eq_true, decide_eq_true_eq, ne_eq]
            exact ⟨⟨⟨⟨h1, h2⟩, h3⟩, h4⟩, by simp [hj]⟩
    · simp [sseDecodeLine, parseSSEChunk, h1, h2]

/-- C4: over any interleaving of well-formed and malformed SSE lines, the
decoding loop of both adapters produces exactly the parses of the
well-formed lines in input order (one event per well-formed line, none per
malformed line), a malformed line never aborts the remaining lines
(decoding distributes over appending more lines), the number of events is
the number of well-formed lines, and the `[DONE]` sentinel produces no
event for every possible JSON parser — it is recognized before any JSON
parse could run. -/
theorem c4_sse_interleaving {J : Type} (jp : String → Option J)
    (lines xs ys : List String) :
    sseDecode jp lines =
      (lines.filter (sseWellFormed jp)).filterMap
        (fun l => jp (jsTrim (jsSlice l 6)))
    ∧ sseDecode jp (xs ++ ys) = sseDecode jp xs ++ sseDecode jp ys
    ∧ (sseDecode jp lines).length = (lines.filter (sseWellFormed jp)).length
    ∧ (∀ jp2 : String → Option J, parseSSEChunk jp2 "data: [DONE]" = none) := by
  have key : ∀ ls : List String, sseDecode jp ls =
      (ls.filter (sseWellFormed jp)).filterMap
        (fun l => jp (jsTrim (jsSlice l 6))) := by
    intro ls
    induction ls with
    | nil => rfl
    | cons l ls ih =>
      by_cases h : sseWellFormed jp l = true
      · simp only [sseDecode, List.filterMap_cons, List.filter_cons, h, if_pos]
        rw [sseDecodeLine_eq_of_wellFormed jp l h]
        simp only [sseDecode] at ih
        cases hj : jp (jsTrim (jsSlice l 6)) with
        | none =>
          exfalso
          simp only [sseWellFormed, Bool.and_eq_true] at h
          rw [hj] at h
          simp at h
        | some v => simp [List.filterMap_cons, hj, ih]
      · simp only [sseDecode, List.filterMap_cons, List.filter_cons,
          sseDecodeLine_eq_none_of_not_wellFormed jp l h]
        simp only [Bool.not_eq_true] at h
        simp only [h]
        exact ih
  refine ⟨key lines, ?_, ?_, ?_⟩
  · simp [sseDecode, List.filterMap_append]
  · rw [key lines]
    have : ∀ ls : List String, (∀ l ∈ ls, sseWellFormed jp l = true) →
        (ls.filterMap (fun l => jp (jsTrim (jsSlice l 6)))).length = ls.length := by
      intro ls
      induction ls with
      | nil => intro _; rfl
      | cons l ls ih =>
        intro hmem
        have hl := hmem l (List.mem_cons_self l ls)
        simp only [sseWellFormed, Bool.and_eq_true] at hl
        obtain ⟨_, hsome⟩ := hl
        cases hj : jp (jsTrim (jsSlice l 6)) with
        | none => rw [hj] at hsome; simp at hsome
        | some v =>
          simp only [List.filterMap_cons, hj, List.length_cons]
          rw [ih (fun x hx => hmem x (List.mem_cons_of_mem l hx))]
    exact this _ (fun l hl => (List.mem_filter.mp hl).2
      )
  · intro jp2
    rfl

/-- C8: the claim fails on the code.  For the `free` temperature mode and a
caller-supplied temperature of 0.3, the claim requires the resolved
temperature 0.3, but the shared helper `getTemperature` takes no caller
value at all and returns 0.7. -/
theorem c8_temperature_counterexample :
    getTemperature ⟨⟨"max_tokens", "free", false, false⟩,
        ⟨false, false, false⟩, ⟨false⟩⟩ = 7/10 ∧
    resolveTemperatureClaim "free" (some (3/10)) = 3/10 ∧
    (7/10 : ℚ) ≠ 3/10 := by
  refine ⟨?_, ?_, by norm_num⟩
  · unfold getTemperature
    rw [if_neg (by decide), if_neg (by decide)]
  · unfold resolveTemperatureClaim
    rw [if_neg (by decide), if_neg (by decide)]
    rfl

/-- C8 (amended): for every capability descriptor and every caller-supplied
temperature, the shared helper resolves `fixed_one` to 1, `restricted` to
`min(1, 0.7)`, and anything else to 0.7, ignoring the caller-supplied
value entirely. -/
theorem c8_temperature_amended (caps : ModelCapabilities) (caller : Option ℚ) :
    getTemperature caps = resolveTemperatureAmended caps.parameters.temperatureMode caller := by
  rfl

/-- C10: `normalizeTokens` resolves the canonical input count by the first
present field in the order `prompt_tokens`, `input_tokens`, `promptTokens`
(default 0), the output count by `completion_tokens`, `output_tokens`,
`completionTokens` (default 0), and leaves `total` and `reasoning` absent
exactly when no corresponding provider field is present. -/
theorem c10_normalize_tokens (u : ProviderUsage) :
    (normalizeTokens u).input =
      (match u.prompt_tokens with
       | some n => n
       | none =>
         match u.input_tokens with
         | some n => n
         | none =>
           match u.promptTokens with
           | some n => n
           | none => 0)
    ∧ (normalizeTokens u).output =
      (match u.completion_tokens with
       | some n => n
       | none =>
         match u.output_tokens with
         | some n => n
         | none =>
           match u.completionTokens with
           | some n => n
           | none => 0)
    ∧ ((normalizeTokens u).total = none ↔
        u.total_tokens = none ∧ u.totalTokens = none)
    ∧ ((normalizeTokens u).total = none ∨
        (normalizeTokens u).total = u.total_tokens ∨
        (normalizeTokens u).total = u.totalTokens)
    ∧ ((normalizeTokens u).reasoning = none ↔
        u.reasoning_tokens = none ∧ u.reasoningTokens = none) := by
  obtain ⟨pt, it, pT, ct, ot, cT, tt, tT, rt, rT⟩ := u
  refine ⟨?_, ?_, ?_, ?_, ?_⟩
  · cases pt <;> cases it <;> cases pT <;> simp [normalizeTokens, Option.orElse]
  · cases ct <;> cases ot <;> cases cT <;> simp [normalizeTokens, Option.orElse]
  · cases tt <;> cases tT <;> simp [normalizeTokens, Option.orElse]
  · cases tt <;> cases tT <;> simp [normalizeTokens, Option.orElse]
  · cases rt <;> cases rT <;> simp [normalizeTokens, Option.orElse]

/-- C1: in the Responses-API adapter's `createRequest` payload, a
`reasoning.effort` value and the `include` entry
`reasoning.encrypted_content` are present together exactly when reasoning
effort is supported or requested, absent together otherwise, and one is
never present without the other. -/
theorem c1_reasoning_include_coupling {σ : Type} (z2j : σ → Option σ)
    (hasTypeOrProps : σ → Bool) (minimalSchema : σ) (caps : ModelCapabilities)
    (profile : ModelProfile) (params : UnifiedRequestParams σ) :
    ((ResponsesAPIAdapter.createRequest z2j hasTypeOrProps minimalSchema caps
        profile params).reasoning.isSome &&
      ((ResponsesAPIAdapter.createRequest z2j hasTypeOrProps minimalSchema caps
        profile params).includeList.getD []).contains "reasoning.encrypted_content")
      = (shouldIncludeReasoningEffort caps || strTruthy params.reasoningEffort)
    ∧ ((ResponsesAPIAdapter.createRequest z2j hasTypeOrProps minimalSchema caps
        profile params).reasoning.isNone &&
      (ResponsesAPIAdapter.createRequest z2j hasTypeOrProps minimalSchema caps
        profile params).includeList.isNone)
      = !(shouldIncludeReasoningEffort caps || strTruthy params.reasoningEffort)
    ∧ (ResponsesAPIAdapter.createRequest z2j hasTypeOrProps minimalSchema caps
        profile params).reasoning.isSome
      = (ResponsesAPIAdapter.createRequest z2j hasTypeOrProps minimalSchema caps
        profile params).includeList.isSome := by
  by_cases h : (shouldIncludeReasoningEffort caps || strTruthy params.reasoningEffort) = true
  · refine ⟨?_, ?_, ?_⟩ <;> simp [ResponsesAPIAdapter.createRequest, h]
  · simp only [Bool.not_eq_true] at h
    refine ⟨?_, ?_, ?_⟩ <;> simp [ResponsesAPIAdapter.createRequest, h]

/-- C2: the claim fails on the code.  `buildMessages` makes one
system-role entry for every system-prompt string, without filtering empty
ones: with the single empty system prompt and no caller messages, the
claim predicts 0 messages but the code produces 1. -/
theorem c2_message_count_counterexample :
    (ChatCompletionsAdapter.createRequest (σ := Unit) (fun _ => ())
        ⟨⟨"max_tokens", "free", false, false⟩, ⟨false, false, false⟩, ⟨false⟩⟩
        ⟨"m", none⟩
        ⟨[], [""], [], 5, false, none, none, none, none, none⟩).messages.length = 1
    ∧ ((([""] : List String).filter (fun s => s ≠ "")).length
        + ([] : List UMessage).length) = 0
    ∧ (1 : Nat) ≠ 0 := by
  refine ⟨by decide, by decide, by decide⟩

/-- C2 (amended): the Chat-Completions message list is exactly one
system-role entry per system-prompt string — empty or not — in original
order, followed by the caller messages in original order; its length is
the number of system-prompt strings plus the number of caller messages. -/
theorem c2_message_layout_amended {σ : Type} (z2j : Option σ → σ)
    (caps : ModelCapabilities) (profile : ModelProfile)
    (params : UnifiedRequestParams σ) :
    (ChatCompletionsAdapter.createRequest z2j caps profile params).messages
      = params.systemPrompt.map ChatCompletionsAdapter.CCWireMessage.system
        ++ params.messages.map ChatCompletionsAdapter.CCWireMessage.caller
    ∧ (ChatCompletionsAdapter.createRequest z2j caps profile params).messages.length
      = params.systemPrompt.length + params.messages.length := by
  have hmsg : (ChatCompletionsAdapter.createRequest z2j caps profile params).messages
      = params.systemPrompt.map ChatCompletionsAdapter.CCWireMessage.system
        ++ params.messages.map ChatCompletionsAdapter.CCWireMessage.caller := by
    simp only [ChatCompletionsAdapter.createRequest]
    by_cases h : jsStartsWith profile.modelName "o1" = true <;>
      simp [h, ChatCompletionsAdapter.buildMessages]
  refine ⟨hmsg, ?_⟩
  rw [hmsg]
  simp

/-- C3: the claim fails on the code.  The non-streaming branch of the
Chat-Completions `parseResponse` returns the provider content string as
is — on a response with no choices it returns the empty string, not a
non-empty sequence of content blocks. -/
theorem c3_content_blocks_counterexample :
    (ChatCompletionsAdapter.parseResponseNonStreaming (τ := Unit) "cid"
        ⟨none, none, none⟩).content = UnifiedContent.str ""
    ∧ isNonEmptyBlocks ((ChatCompletionsAdapter.parseResponseNonStreaming (τ := Unit)
        "cid" ⟨none, none, none⟩).content) = false := by
  exact ⟨rfl, rfl⟩

/-- C3 (amended): the Responses-API adapter's buffered parser always
returns a one-element content-block sequence — never empty — and on a
response whose `output` array is empty the content is exactly one empty
text block.  The Chat-Completions parser keeps the provider string
instead (see the counterexample). -/
theorem c3_content_blocks_amended (freshId freshToolId : String)
    (r : ResponsesAPIAdapter.RespResponse) :
    isNonEmptyBlocks ((ResponsesAPIAdapter.parseNonStreamingResponse freshId
        freshToolId r).content) = true
    ∧ (∃ s, (ResponsesAPIAdapter.parseNonStreamingResponse freshId freshToolId
        r).content = UnifiedContent.blocks [ContentBlock.text s []])
    ∧ (ResponsesAPIAdapter.parseNonStreamingResponse freshId freshToolId
        ⟨none, none, some [], none⟩).content
      = UnifiedContent.blocks [ContentBlock.text "" []] := by
  have key : ∀ c : String,
      (if c ≠ "" then [ContentBlock.text c []] else [ContentBlock.text "" []])
        = [ContentBlock.text (if c = "" then "" else c) []] := by
    intro c
    by_cases h : c = "" <;> simp [h]
  refine ⟨?_, ?_, rfl⟩
  · simp [ResponsesAPIAdapter.parseNonStreamingResponse, key, isNonEmptyBlocks]
  · simp only [ResponsesAPIAdapter.parseNonStreamingResponse, key]
    exact ⟨_, rfl⟩

/-- C5: the claim fails on the code.  When the index-0 tool call's
arguments arrive split across two delta chunks, the Chat-Completions
streaming parser emits two `tool_request` events — the first with the
partial argument string, the second with no id and no name — instead of
accumulating by index and emitting one complete call. -/
theorem c5_split_fragments_counterexample :
    ((ChatCompletionsAdapter.parseStreamingResponse ChatCompletionsAdapter.fragmentJp
        "rid" ["data: A\ndata: B\n"] none).filterMap getToolReq)
      = [⟨some "c1", some "f", "\x7b\"a\":"⟩, ⟨none, none, "1\x7d"⟩]
    ∧ ((ChatCompletionsAdapter.parseStreamingResponse ChatCompletionsAdapter.fragmentJp
        "rid" ["data: A\ndata: B\n"] none).countP isToolRequest) = 2
    ∧ (2 : Nat) ≠ 1 := by
  refine ⟨by decide, by decide, by decide⟩

/-- C5 (amended): the Chat-Completions streaming parser does not
accumulate tool-call fragments by index — for every parsed chunk and
every parser state, it immediately emits exactly one `tool_request` per
fragment of that chunk's `tool_calls` array, in order, with the
fragment's id and name as received (possibly absent) and its argument
string as received (defaulted to the empty-object string when absent),
with no completeness check. -/
theorem c5_fragment_passthrough_amended (p : ChatCompletionsAdapter.ChatChunk)
    (st : ChatCompletionsAdapter.CCStreamState) :
    ((ChatCompletionsAdapter.processParsed p st).1.filter isToolRequest)
      = (ChatCompletionsAdapter.fragsOfChunk p).map
          ChatCompletionsAdapter.toolRequestOfFrag := by
  simp only [ChatCompletionsAdapter.processParsed, List.filter_append]
  have htext : (ChatCompletionsAdapter.ccTextEvents p st).filter isToolRequest = [] := by
    unfold ChatCompletionsAdapter.ccTextEvents
    split
    · cases st.hasStarted <;> simp [isToolRequest]
    · rfl
  have htool :
      ((ChatCompletionsAdapter.fragsOfChunk p).map
        ChatCompletionsAdapter.toolRequestOfFrag).filter isToolRequest
      = (ChatCompletionsAdapter.fragsOfChunk p).map
          ChatCompletionsAdapter.toolRequestOfFrag := by
    apply List.filter_eq_self.mpr
    intro e he
    obtain ⟨tc, _, rfl⟩ := List.mem_map.mp he
    rfl
  have husage : (ChatCompletionsAdapter.ccUsageEvents p).filter isToolRequest = [] := by
    unfold ChatCompletionsAdapter.ccUsageEvents
    cases p.usage <;> rfl
  rw [htext, htool, husage]
  simp

/-- C6: in the Responses-API streaming chunk handler, the `tool_request`
events of any chunk are exactly one atomic event when the chunk is an
`response.output_item.done` whose `function_call` item has call id, name
and arguments all of string type, and none otherwise — an incomplete item
is silently dropped. -/
theorem c6_atomic_tool_request (p : ResponsesAPIAdapter.RespChunk) (rid : String)
    (hs : Bool) :
    (ResponsesAPIAdapter.processStreamingChunk p rid hs).filter isToolRequest
      = (if ResponsesAPIAdapter.itemDoneComplete p
          then [ResponsesAPIAdapter.completedToolEvent p]
          else []) := by
  obtain ⟨ptype, pdelta, pitem, pusage⟩ := p
  simp only [ResponsesAPIAdapter.processStreamingChunk,
    ResponsesAPIAdapter.itemDoneComplete, ResponsesAPIAdapter.completedToolEvent,
    List.filter_append]
  have husage :
      ((match pusage with
        | some u =>
            [StreamingEvent.usage
              ⟨u.input_tokens.getD 0, u.output_tokens.getD 0,
                u.input_tokens.getD 0, u.output_tokens.getD 0,
                u.total_tokens.getD (u.input_tokens.getD 0 + u.output_tokens.getD 0),
                u.reasoning_tokens.getD 0⟩]
        | none => ([] : List StreamingEvent))).filter isToolRequest = [] := by
    cases pusage <;> rfl
  by_cases h1 : ptype = some "response.output_item.done"
  · have h1b : ptype ≠ some "response.output_text.delta" := by
      rw [h1]; decide
    by_cases h2 :
        (({ type := ptype, delta := pdelta, item := pitem, usage := pusage } :
          ResponsesAPIAdapter.RespChunk).item.getD
            ResponsesAPIAdapter.emptyRespStreamItem).type = some "function_call"
    · cases hA : asString (jor
          ((pitem.getD ResponsesAPIAdapter.emptyRespStreamItem).call_id)
          ((pitem.getD ResponsesAPIAdapter.emptyRespStreamItem).id)) with
      | none =>
        simp [h1, h1b, h2, hA, husage, isToolRequest]
      | some cid =>
        cases hB : asString (pitem.getD ResponsesAPIAdapter.emptyRespStreamItem).name with
        | none => simp [h1, h1b, h2, hA, hB, husage, isToolRequest]
        | some nm =>
          cases hC : asString
              (pitem.getD ResponsesAPIAdapter.emptyRespStreamItem).arguments with
          | none => simp [h1, h1b, h2, hA, hB, hC, husage, isToolRequest]
          | some args => simp [h1, h1b, h2, hA, hB, hC, husage, isToolRequest]
    · simp [h1, h1b, h2, husage, isToolRequest]
  · by_cases h0 : ptype = some "response.output_text.delta"
    · have h0b :
          (if ptype = some "response.output_item.done" then
            (if (pitem.getD ResponsesAPIAdapter.emptyRespStreamItem).type
                = some "function_call" then
              match asString (jor
                  (pitem.getD ResponsesAPIAdapter.emptyRespStreamItem).call_id
                  (pitem.getD ResponsesAPIAdapter.emptyRespStreamItem).id),
                asString (pitem.getD ResponsesAPIAdapter.emptyRespStreamItem).name,
                asString (pitem.getD ResponsesAPIAdapter.emptyRespStreamItem).arguments with
              | some cid, some nm, some args =>
                  [StreamingEvent.toolRequest ⟨some cid, some nm, args⟩]
              | _, _, _ => []
            else [])
          else ([] : List StreamingEvent)) = [] := by
        simp [h1]
      by_cases hd : (pdelta.getD "") ≠ ""
      · cases hs <;>
          simp [h0, h1, hd, husage, isToolRequest,
            ResponsesAPIAdapter.handleTextDelta]
      · simp [h0, h1, hd, husage, isToolRequest]
    · simp [h0, h1, husage, isToolRequest]

/-- C9: draining any event sequence, the stream-to-message reducer turns
every collected `tool_request`, in order, into exactly one tool-use block
whose input is the tolerant parse of the call's argument string — the
empty object whenever the parse fails or the string is empty — and, being
a total function, never propagates an exception. -/
theorem c9_tolerant_tool_args {A : Type} (jp : String → Option A) (emptyObj : A)
    (rid0 : String) (evs : List StreamingEvent) :
    (ChatCompletionsAdapter.parseStreamingChatCompletion jp emptyObj rid0
        evs).content.filterMap ChatCompletionsAdapter.getToolUse
      = (evs.filterMap getToolReq).map (fun t =>
          (t.id, t.name, ChatCompletionsAdapter.tolerantParse jp emptyObj t.input)) := by
  have addText_no_tool : ∀ (blocks : List (ChatCompletionsAdapter.RedBlock A)) (d : String),
      blocks.all (fun b => !ChatCompletionsAdapter.isToolUseB b) = true →
      (ChatCompletionsAdapter.addTextDelta blocks d).all
        (fun b => !ChatCompletionsAdapter.isToolUseB b) = true := by
    intro blocks d h
    unfold ChatCompletionsAdapter.addTextDelta
    have hdrop : blocks.dropLast.all
        (fun b => !ChatCompletionsAdapter.isToolUseB b) = true := by
      rw [List.all_eq_true] at h ⊢
      intro b hb
      exact h b (List.dropLast_subset _ hb)
    cases hl : blocks.getLast? with
    | none =>
      rw [List.all_eq_true] at h ⊢
      intro b hb
      rcases List.mem_append.mp hb with hb1 | hb2
      · exact h b hb1
      · simp only [List.mem_singleton] at hb2
        subst hb2
        rfl
    | some b0 =>
      cases b0 with
      | text t c =>
        rw [List.all_eq_true] at hdrop ⊢
        intro b hb
        rcases List.mem_append.mp hb with hb1 | hb2
        · exact hdrop b hb1
        · simp only [List.mem_singleton] at hb2
          subst hb2
          rfl
      | toolUse i n inp =>
        rw [List.all_eq_true] at h ⊢
        intro b hb
        rcases List.mem_append.mp hb with hb1 | hb2
        · exact h b hb1
        · simp only [List.mem_singleton] at hb2
          subst hb2
          rfl
  have inv : ∀ (es : List StreamingEvent) (st : ChatCompletionsAdapter.RedState A),
      st.blocks.all (fun b => !ChatCompletionsAdapter.isToolUseB b) = true →
      (es.foldl ChatCompletionsAdapter.stepReduce st).blocks.all
          (fun b => !ChatCompletionsAdapter.isToolUseB b) = true
      ∧ (es.foldl ChatCompletionsAdapter.stepReduce st).pending
          = st.pending ++ es.filterMap getToolReq := by
    intro es
    induction es with
    | nil => intro st h; exact ⟨h, by simp⟩
    | cons e es ih =>
      intro st h
      cases e with
      | messageStart rid =>
        have := ih { st with responseId := if rid ≠ "" then rid else st.responseId } h
        simpa [ChatCompletionsAdapter.stepReduce, getToolReq] using this
      | textDelta d r =>
        have := ih { st with blocks := ChatCompletionsAdapter.addTextDelta st.blocks d }
          (addText_no_tool st.blocks d h)
        simpa [ChatCompletionsAdapter.stepReduce, getToolReq] using this
      | toolRequest t =>
        have := ih { st with pending := st.pending ++ [t] } h
        simp only [ChatCompletionsAdapter.stepReduce, List.foldl_cons] at this ⊢
        refine ⟨this.1, ?_⟩
        rw [this.2]
        simp [getToolReq]
      | usage u =>
        have := ih { st with
          prompt_tokens := u.input_tokens
          completion_tokens := u.output_tokens
          totalTokens := some u.totalTokens } h
        simpa [ChatCompletionsAdapter.stepReduce, getToolReq] using this
      | messageStop i c =>
        have := ih st h
        simpa [ChatCompletionsAdapter.stepReduce, getToolReq] using this
      | error m =>
        have := ih st h
        simpa [ChatCompletionsAdapter.stepReduce, getToolReq] using this
  obtain ⟨hblocks, hpending⟩ :=
    inv evs (⟨[], [], 0, 0, none, rid0⟩ : ChatCompletionsAdapter.RedState A) (by simp)
  simp only [ChatCompletionsAdapter.parseStreamingChatCompletion, List.filterMap_append]
  rw [hpending]
  have h1 : (evs.foldl ChatCompletionsAdapter.stepReduce
      (⟨[], [], 0, 0, none, rid0⟩ : ChatCompletionsAdapter.RedState A)).blocks.filterMap
        ChatCompletionsAdapter.getToolUse = [] := by
    rw [List.filterMap_eq_nil_iff]
    intro b hb
    rw [List.all_eq_true] at hblocks
    have := hblocks b hb
    cases b with
    | text t c => rfl
    | toolUse i n inp => simp [ChatCompletionsAdapter.isToolUseB] at this
  rw [h1]
  simp only [List.nil_append, List.filterMap_map]
  have hfm : ∀ (l : List ToolEv),
      l.filterMap (ChatCompletionsAdapter.getToolUse (A := A) ∘ fun t =>
        ChatCompletionsAdapter.RedBlock.toolUse t.id t.name
          (ChatCompletionsAdapter.tolerantParse jp emptyObj t.input))
      = l.map (fun t =>
          (t.id, t.name, ChatCompletionsAdapter.tolerantParse jp emptyObj t.input)) := by
    intro l
    induction l with
    | nil => rfl
    | cons x xs ih =>
      simp [List.filterMap_cons, ih, ChatCompletionsAdapter.getToolUse, Function.comp]
  exact hfm _

theorem startOk_append (seen : Bool) (xs ys : List StreamingEvent) :
    startOk seen (xs ++ ys) = (startOk seen xs && startOk (seen || xs.any isStart) ys) := by
  induction xs generalizing seen with
  | nil => simp [startOk]
  | cons e xs ih =>
    cases e with
    | messageStart r => cases seen <;> simp [startOk, isStart, ih]
    | textDelta d r => cases seen <;> simp [startOk, isStart, ih]
    | toolRequest t => simp [startOk, isStart, ih]
    | usage u => simp [startOk, isStart, ih]
    | messageStop i c => simp [startOk, isStart, ih]
    | error m => simp [startOk, isStart, ih]

theorem startOk_neutral (l : List StreamingEvent)
    (h : l.all (fun e => !isStart e && !isTextDelta e) = true) :
    ∀ seen, startOk seen l = true ∧ l.any isStart = false := by
  induction l with
  | nil => intro seen; simp [startOk]
  | cons e l ih =>
    intro seen
    rw [List.all_cons, Bool.and_eq_true] at h
    obtain ⟨he, hl⟩ := h
    cases e with
    | messageStart r => simp [isStart] at he
    | textDelta d r => simp [isTextDelta] at he
    | toolRequest t =>
      have := ih hl seen
      simp [startOk, isStart, this.1, (ih hl seen).2]
    | usage u =>
      have := ih hl seen
      simp [startOk, isStart, this.1, (ih hl seen).2]
    | messageStop i c =>
      have := ih hl seen
      simp [startOk, isStart, this.1, (ih hl seen).2]
    | error m =>
      have := ih hl seen
      simp [startOk, isStart, this.1, (ih hl seen).2]

theorem processParsed_discipline (p : ChatCompletionsAdapter.ChatChunk)
    (st : ChatCompletionsAdapter.CCStreamState) :
    ((ChatCompletionsAdapter.processParsed p st).1.all
        (fun e => !isStop e && !isError e)) = true
    ∧ startOk st.hasStarted (ChatCompletionsAdapter.processParsed p st).1 = true
    ∧ (ChatCompletionsAdapter.processParsed p st).2.hasStarted
      = (st.hasStarted || (ChatCompletionsAdapter.processParsed p st).1.any isStart) := by
  have htool_n : ((ChatCompletionsAdapter.fragsOfChunk p).map
      ChatCompletionsAdapter.toolRequestOfFrag).all
        (fun e => !isStart e && !isTextDelta e) = true := by
    rw [List.all_eq_true]
    intro e he
    obtain ⟨tc, _, rfl⟩ := List.mem_map.mp he
    rfl
  have htool_se : ((ChatCompletionsAdapter.fragsOfChunk p).map
      ChatCompletionsAdapter.toolRequestOfFrag).all
        (fun e => !isStop e && !isError e) = true := by
    rw [List.all_eq_true]
    intro e he
    obtain ⟨tc, _, rfl⟩ := List.mem_map.mp he
    rfl
  have husage_n : (ChatCompletionsAdapter.ccUsageEvents p).all
      (fun e => !isStart e && !isTextDelta e) = true := by
    unfold ChatCompletionsAdapter.ccUsageEvents
    cases p.usage <;> rfl
  have husage_se : (ChatCompletionsAdapter.ccUsageEvents p).all
      (fun e => !isStop e && !isError e) = true := by
    unfold ChatCompletionsAdapter.ccUsageEvents
    cases p.usage <;> rfl
  have hrest_n : ((ChatCompletionsAdapter.fragsOfChunk p).map
      ChatCompletionsAdapter.toolRequestOfFrag ++
        ChatCompletionsAdapter.ccUsageEvents p).all
        (fun e => !isStart e && !isTextDelta e) = true := by
    rw [List.all_append, htool_n, husage_n]
    rfl
  have hrest_se : ((ChatCompletionsAdapter.fragsOfChunk p).map
      ChatCompletionsAdapter.toolRequestOfFrag ++
        ChatCompletionsAdapter.ccUsageEvents p).all
        (fun e => !isStop e && !isError e) = true := by
    rw [List.all_append, htool_se, husage_se]
    rfl
  have hrest := startOk_neutral _ hrest_n
  have htool_any := (startOk_neutral _ htool_n false).2
  have husage_any := (startOk_neutral _ husage_n false).2
  refine ⟨?_, ?_, ?_⟩
  · simp only [ChatCompletionsAdapter.processParsed, List.all_append]
    rw [htool_se, husage_se]
    have : (ChatCompletionsAdapter.ccTextEvents p st).all
        (fun e => !isStop e && !isError e) = true := by
      unfold ChatCompletionsAdapter.ccTextEvents
      split
      · cases st.hasStarted <;> rfl
      · rfl
    rw [this]
    rfl
  · simp only [ChatCompletionsAdapter.processParsed]
    rw [startOk_append]
    have h1 : startOk st.hasStarted (ChatCompletionsAdapter.ccTextEvents p st) = true := by
      unfold ChatCompletionsAdapter.ccTextEvents
      split
      · cases hst : st.hasStarted <;> simp [startOk]
      · cases st.hasStarted <;> rfl
    rw [h1, (hrest _).1]
    rfl
  · simp only [ChatCompletionsAdapter.processParsed, List.any_append]
    rw [htool_any, husage_any]
    by_cases hfd : ChatCompletionsAdapter.ccFullDelta p = ""
    · simp [ChatCompletionsAdapter.ccTextEvents, hfd]
    · cases hst : st.hasStarted <;>
        simp [ChatCompletionsAdapter.ccTextEvents, hfd, isStart, hst]

theorem processLine_discipline (jp : String → Option ChatCompletionsAdapter.ChatChunk)
    (line : String) (st : ChatCompletionsAdapter.CCStreamState) :
    ((ChatCompletionsAdapter.processLine jp line st).1.all
        (fun e => !isStop e && !isError e)) = true
    ∧ startOk st.hasStarted (ChatCompletionsAdapter.processLine jp line st).1 = true
    ∧ (ChatCompletionsAdapter.processLine jp line st).2.hasStarted
      = (st.hasStarted || (ChatCompletionsAdapter.processLine jp line st).1.any isStart) := by
  unfold ChatCompletionsAdapter.processLine
  split
  · cases h : parseSSEChunk jp line with
    | some p => exact processParsed_discipline p st
    | none => exact ⟨rfl, rfl, by simp⟩
  · exact ⟨rfl, rfl, by simp⟩

theorem processLines_discipline (jp : String → Option ChatCompletionsAdapter.ChatChunk)
    (ls : List String) :
    ∀ st : ChatCompletionsAdapter.CCStreamState,
      ((ChatCompletionsAdapter.processLines jp ls st).1.all
          (fun e => !isStop e && !isError e)) = true
      ∧ startOk st.hasStarted (ChatCompletionsAdapter.processLines jp ls st).1 = true
      ∧ (ChatCompletionsAdapter.processLines jp ls st).2.hasStarted
        = (st.hasStarted || (ChatCompletionsAdapter.processLines jp ls st).1.any isStart) := by
  induction ls with
  | nil => intro st; exact ⟨rfl, rfl, by simp [ChatCompletionsAdapter.processLines]⟩
  | cons l ls ih =>
    intro st
    obtain ⟨a1, a2, a3⟩ := processLine_discipline jp l st
    obtain ⟨b1, b2, b3⟩ := ih (ChatCompletionsAdapter.processLine jp l st).2
    simp only [ChatCompletionsAdapter.processLines]
    refine ⟨?_, ?_, ?_⟩
    · rw [List.all_append, a1, b1]
      rfl
    · rw [startOk_append, a2, ← a3, b2]
      rfl
    · rw [List.any_append, b3, a3]
      cases st.hasStarted <;>
        cases hx : (ChatCompletionsAdapter.processLine jp l st).1.any isStart <;>
        simp

theorem processChunk_discipline (jp : String → Option ChatCompletionsAdapter.ChatChunk)
    (chunk : String) (st : ChatCompletionsAdapter.CCGenState) :
    ((ChatCompletionsAdapter.processChunk jp chunk st).1.all
        (fun e => !isStop e && !isError e)) = true
    ∧ startOk st.locals.hasStarted (ChatCompletionsAdapter.processChunk jp chunk st).1 = true
    ∧ (ChatCompletionsAdapter.processChunk jp chunk st).2.locals.hasStarted
      = (st.locals.hasStarted || (ChatCompletionsAdapter.processChunk jp chunk st).1.any isStart) := by
  unfold ChatCompletionsAdapter.processChunk
  exact processLines_discipline jp _ st.locals

theorem processChunks_discipline (jp : String → Option ChatCompletionsAdapter.ChatChunk)
    (chunks : List String) :
    ∀ st : ChatCompletionsAdapter.CCGenState,
      ((ChatCompletionsAdapter.processChunks jp chunks st).1.all
          (fun e => !isStop e && !isError e)) = true
      ∧ startOk st.locals.hasStarted (ChatCompletionsAdapter.processChunks jp chunks st).1 = true
      ∧ (ChatCompletionsAdapter.processChunks jp chunks st).2.locals.hasStarted
        = (st.locals.hasStarted ||
            (ChatCompletionsAdapter.processChunks jp chunks st).1.any isStart) := by
  induction chunks with
  | nil => intro st; exact ⟨rfl, rfl, by simp [ChatCompletionsAdapter.processChunks]⟩
  | cons c cs ih =>
    intro st
    obtain ⟨a1, a2, a3⟩ := processChunk_discipline jp c st
    obtain ⟨b1, b2, b3⟩ := ih (ChatCompletionsAdapter.processChunk jp c st).2
    simp only [ChatCompletionsAdapter.processChunks]
    refine ⟨?_, ?_, ?_⟩
    · rw [List.all_append, a1, b1]
      rfl
    · rw [startOk_append, a2, ← a3, b2]
      rfl
    · rw [List.any_append, b3, a3]
      cases st.locals.hasStarted <;>
        cases hx : (ChatCompletionsAdapter.processChunk jp c st).1.any isStart <;>
        simp

/-- C7: every event sequence of one Chat-Completions
`parseStreamingResponse` invocation has at most one `message_start`
preceding the first `text_delta` (the `startOk` scanner accepts it),
exactly one terminal `message_stop`, and no other stop or error events in
the body; when the underlying read raises after delivering the chunks,
the same body events are still produced, followed by exactly one `error`
event and then the terminal `message_stop`. -/
theorem c7_stream_event_discipline (jp : String → Option ChatCompletionsAdapter.ChatChunk)
    (rid0 : String) (chunks : List String) (msg : String) :
    ∃ body rid fin,
      ChatCompletionsAdapter.parseStreamingResponse jp rid0 chunks none
        = body ++ [StreamingEvent.messageStop rid fin]
      ∧ ChatCompletionsAdapter.parseStreamingResponse jp rid0 chunks (some msg)
        = body ++ [StreamingEvent.error msg, StreamingEvent.messageStop rid fin]
      ∧ body.all (fun e => !isStop e && !isError e) = true
      ∧ startOk false (body ++ [StreamingEvent.messageStop rid fin]) = true
      ∧ startOk false
          (body ++ [StreamingEvent.error msg, StreamingEvent.messageStop rid fin]) = true
      ∧ (body ++ [StreamingEvent.messageStop rid fin]).countP isStop = 1
      ∧ (body ++ [StreamingEvent.error msg,
          StreamingEvent.messageStop rid fin]).countP isStop = 1
      ∧ (body ++ [StreamingEvent.messageStop rid fin]).countP isError = 0
      ∧ (body ++ [StreamingEvent.error msg,
          StreamingEvent.messageStop rid fin]).countP isError = 1 := by
  obtain ⟨h1, h2, h3⟩ := processChunks_discipline jp chunks ⟨"", ⟨rid0, false, ""⟩⟩
  set r := ChatCompletionsAdapter.processChunks jp chunks ⟨"", ⟨rid0, false, ""⟩⟩ with hr
  refine ⟨r.1, r.2.locals.responseId,
    (if r.2.locals.accumulated ≠ "" then
      [ContentBlock.text r.2.locals.accumulated []]
    else [ContentBlock.text "" []]), ?_, ?_, h1, ?_, ?_, ?_, ?_, ?_, ?_⟩
  · simp [ChatCompletionsAdapter.parseStreamingResponse, ← hr]
  · simp [ChatCompletionsAdapter.parseStreamingResponse, ← hr]
  · rw [startOk_append, h2]
    have := startOk_neutral [StreamingEvent.messageStop r.2.locals.responseId
      (if r.2.locals.accumulated ≠ "" then
        [ContentBlock.text r.2.locals.accumulated []]
      else [ContentBlock.text "" []])] rfl
    rw [(this _).1]
    rfl
  · rw [startOk_append, h2]
    have := startOk_neutral [StreamingEvent.error msg,
      StreamingEvent.messageStop r.2.locals.responseId
        (if r.2.locals.accumulated ≠ "" then
          [ContentBlock.text r.2.locals.accumulated []]
        else [ContentBlock.text "" []])] rfl
    rw [(this _).1]
    rfl
  · rw [List.countP_append]
    have : r.1.countP isStop = 0 := by
      rw [List.countP_eq_zero]
      intro e he
      rw [List.all_eq_true] at h1
      have := h1 e he
      cases e <;> simp_all [isStop, isError]
    rw [this]
    rfl
  · rw [List.countP_append]
    have : r.1.countP isStop = 0 := by
      rw [List.countP_eq_zero]
      intro e he
      rw [List.all_eq_true] at h1
      have := h1 e he
      cases e <;> simp_all [isStop, isError]
    rw [this]
    rfl
  · rw [List.countP_append]
    have : r.1.countP isError = 0 := by
      rw [List.countP_eq_zero]
      intro e he
      rw [List.all_eq_true] at h1
      have := h1 e he
      cases e <;> simp_all [isStop, isError]
    rw [this]
    rfl
  · rw [List.countP_append]
    have : r.1.countP isError = 0 := by
      rw [List.countP_eq_zero]
      intro e he
      rw [List.all_eq_true] at h1
      have := h1 e he
      cases e <;> simp_all [isStop, isError]
    rw [this]
    rfl

end Kode
